import Mathlib

/-!
Shallow embedding of the core of the roltdb key-value store
(meta pages, freelist, node codec, cursor/bucket lookup, transactions),
with theorems settling the specification claims against the code.

Machine integers are modelled as Nat; wrap-around is written explicitly
with % 2 ^ w where the code can overflow.  Byte buffers are List Nat
(each entry one byte).  Fallible code returns Except / Option.
-/

namespace Roltdb

/-! ### Byte-level helpers (little-endian encoding, slice reads and writes) -/

/-- Little-endian encoding of a 32-bit value, as four bytes. -/
def u32le (n : Nat) : List Nat :=
  [n % 256, n / 256 % 256, n / 2 ^ 16 % 256, n / 2 ^ 24 % 256]

/-- Little-endian encoding of a 64-bit value, as eight bytes. -/
def u64le (n : Nat) : List Nat :=
  [n % 256, n / 256 % 256, n / 2 ^ 16 % 256, n / 2 ^ 24 % 256,
   n / 2 ^ 32 % 256, n / 2 ^ 40 % 256, n / 2 ^ 48 % 256, n / 2 ^ 56 % 256]

/-- Overwrite the bytes of body starting at offset off with bytes
(the embedding of copy_nonoverlapping into a page buffer). -/
def writeAt (body : List Nat) (off : Nat) (bytes : List Nat) : List Nat :=
  body.take off ++ bytes ++ body.drop (off + bytes.length)

/-- Read len bytes of body starting at offset off
(the embedding of from_raw_parts on a page buffer). -/
def readAt (body : List Nat) (off len : Nat) : List Nat :=
  (body.drop off).take len

/-- Decode the little-endian u32 stored at offset off of body. -/
def readU32 (body : List Nat) (off : Nat) : Nat :=
  body.getD off 0 + 256 * body.getD (off + 1) 0 +
    2 ^ 16 * body.getD (off + 2) 0 + 2 ^ 24 * body.getD (off + 3) 0

/-- Decode the little-endian u64 stored at offset off of body. -/
def readU64 (body : List Nat) (off : Nat) : Nat :=
  readU32 body off + 2 ^ 32 * readU32 body (off + 4)

/-- Lexicographic comparison of byte strings: the embedding of
Ord::cmp on Rust byte slices, used by binary_search_by throughout. -/
def bytesCmp : List Nat → List Nat → Ordering
  | [], [] => .eq
  | [], _ :: _ => .lt
  | _ :: _, [] => .gt
  | a :: as, b :: bs =>
    if a < b then .lt else if b < a then .gt else bytesCmp as bs

/-- One step of the slice binary search: fuel-indexed faithful embedding of
Rust core slice::binary_search_by (left/right halving, Ok on an exact hit,
Err carrying the insertion point). -/
def bsGo {α : Type} (f : α → Ordering) (xs : List α) (d : α) :
    Nat → Nat → Nat → Except Nat Nat
  | 0, left, _ => .error left
  | fuel + 1, left, right =>
    if left < right then
      let mid := left + (right - left) / 2
      match f (xs.getD mid d) with
      | .lt => bsGo f xs d fuel (mid + 1) right
      | .gt => bsGo f xs d fuel left mid
      | .eq => .ok mid
    else .error left

/-- Embedding of slice::binary_search_by: Ok index on a hit,
Err insertion point otherwise. -/
def binarySearchBy {α : Type} (f : α → Ordering) (xs : List α) (d : α) :
    Except Nat Nat :=
  bsGo f xs d (xs.length + 1) 0 xs.length

/-! ### Meta record (src/meta.rs) and meta selection (src/db.rs) -/

/-- Embedding of struct Meta (src/meta.rs).  Field order and widths follow
the repr(C) layout; check_sum is the trailing u64. -/
structure Meta where
  page_id : Nat
  magic_number : Nat
  version : Nat
  page_size : Nat
  free_list : Nat
  tx_id : Nat
  root_root : Nat
  root_sequence : Nat
  num_pages : Nat
  check_sum : Nat
  deriving Repr, DecidableEq

/-- Meta::MAGIC. -/
def Meta.MAGIC : Nat := 0xF0F43F

/-- The 64 bytes of a Meta that precede check_sum, in repr(C) layout
(with the 4 padding bytes after page_size, which the code zero-initialises):
exactly the bytes hashed by Meta::sum64. -/
def Meta.prefixBytes (m : Meta) : List Nat :=
  u64le m.page_id ++ u32le m.magic_number ++ u32le m.version ++
    u32le m.page_size ++ u32le 0 ++ u64le m.free_list ++ u64le m.tx_id ++
    u64le m.root_root ++ u64le m.root_sequence ++ u64le m.num_pages

/-- 64-bit FNV-1a over a byte string (the fnv crate hasher used by Meta). -/
def fnv1a (bytes : List Nat) : Nat :=
  bytes.foldl (fun h b => ((h ^^^ b) * 0x100000001b3) % 2 ^ 64) 0xcbf29ce484222325

/-- Embedding of Meta::sum64: FNV-1a over all bytes preceding check_sum. -/
def Meta.sum64 (m : Meta) : Nat :=
  fnv1a m.prefixBytes

/-- Embedding of Meta::validate. -/
def Meta.validate (m : Meta) : Bool :=
  m.magic_number == Meta.MAGIC && m.check_sum == m.sum64

/-- Embedding of Idb::meta (src/db.rs, lines 135-152): parse both meta pages,
choose by validity and tx_id; none models the panic when neither is valid. -/
def chooseMeta (meta0 meta1 : Meta) : Option Meta :=
  match meta0.validate, meta1.validate with
  | true, true => if meta1.tx_id ≤ meta0.tx_id then some meta0 else some meta1
  | true, false => some meta0
  | false, true => some meta1
  | false, false => none

/-- Page header fields of an on-disk page (src/page.rs struct Page). -/
structure PageHeader where
  id : Nat
  page_type : Nat
  count : Nat
  overflow : Nat
  deriving Repr, DecidableEq

/-- Page::META_PAGE. -/
def META_PAGE : Nat := 3

/-- Embedding of Meta::write (src/meta.rs, lines 57-70): sets the page header
id to tx_id % 2, refreshes the checksum, copies the meta bytes into the page
body, and stamps count and page_type.  Returns the updated meta (with its new
checksum), the page header, and the body bytes written. -/
def Meta.write (m : Meta) (p : PageHeader) (body : List Nat) :
    Meta × PageHeader × List Nat :=
  let p := { p with id := m.tx_id % 2 }
  let m := { m with check_sum := m.sum64 }
  let body := writeAt body 0 (m.prefixBytes ++ u64le m.check_sum)
  (m, { p with count := 0, page_type := META_PAGE }, body)

/-- Embedding of the file offset used by ITransaction::write_meta
(src/transaction.rs, lines 231-243): offset = meta.page_id * page_size,
computed from the page_id field of the snapshot meta. -/
def writeMetaOffset (m : Meta) (pageSize : Nat) : Nat :=
  m.page_id * pageSize

/-! ### Node inodes and the page codec (src/node.rs, src/page.rs) -/

/-- Embedding of Inode as defined in src/node.rs: Either of a BranchINode
(key and child page id) or a LeafINode (key and value).  This version of the
struct carries no flags field. -/
inductive Inode where
  | branch (key : List Nat) (page_id : Nat)
  | leaf (key : List Nat) (value : List Nat)
  deriving Repr, DecidableEq

/-- Inode::key. -/
def Inode.key : Inode → List Nat
  | .branch k _ => k
  | .leaf k _ => k

/-- Embedding of Node::put (src/node.rs, lines 199-226): binary-search the
inodes by the old key; on a miss insert a fresh LeafINode with the new key and
value at the insertion point; on a hit rewrite the inode in place, where the
code assigns l.key = key.to_vec() and l.value = key.to_vec().  none models the
unreachable! panic when the hit is a branch inode. -/
def nodePut (inodes : List Inode) (old key value : List Nat) :
    Option (List Inode) :=
  match binarySearchBy (fun i => bytesCmp i.key old) inodes (.leaf [] []) with
  | .error i => some (inodes.take i ++ [Inode.leaf key value] ++ inodes.drop i)
  | .ok i =>
    match inodes.getD i (.leaf [] []) with
    | .leaf _ _ => some (inodes.set i (Inode.leaf key key))
    | .branch _ _ => none

/-- LeafPageElement::SIZE (pos, k_size, v_size: three u32 fields). -/
def leafElemSize : Nat := 12

/-- BranchPageElement::SIZE (pos and k_size u32, id u64, repr(C)). -/
def branchElemSize : Nat := 16

/-- Loop body of the leaf arm of Node::write (src/node.rs, lines 298-315):
element i is laid down at offset i * 12 with pos the distance from the element
record to the running payload address; key then value bytes are appended at
that address. -/
def leafWriteGo (body : List Nat) (i addr : Nat) :
    List (List Nat × List Nat) → List Nat
  | [] => body
  | (k, v) :: rest =>
    let pos := addr - i * leafElemSize
    let body := writeAt body (i * leafElemSize)
      (u32le pos ++ u32le k.length ++ u32le v.length)
    let body := writeAt body addr k
    let body := writeAt body (addr + k.length) v
    leafWriteGo body (i + 1) (addr + k.length + v.length) rest

/-- Embedding of Node::write for a leaf node (src/node.rs, lines 262-318)
into a fresh zeroed page body of bodySize bytes.  Returns the header count
and the body; the payload cursor starts right after the element array. -/
def nodeWriteLeaf (bodySize : Nat) (inodes : List (List Nat × List Nat)) :
    Nat × List Nat :=
  (inodes.length,
   leafWriteGo (List.replicate bodySize 0) 0 (leafElemSize * inodes.length) inodes)

/-- Embedding of LeafPageElement::key and LeafPageElement::value
(src/page.rs, lines 146-170) for the element at index i: the key slice starts
pos bytes after the element record but is declared with length pos + k_size;
the value slice starts after the key bytes with length v_size. -/
def leafReadElem (body : List Nat) (i : Nat) : List Nat × List Nat :=
  let pos := readU32 body (i * leafElemSize)
  let ks := readU32 body (i * leafElemSize + 4)
  let vs := readU32 body (i * leafElemSize + 8)
  (readAt body (i * leafElemSize + pos) (pos + ks),
   readAt body (i * leafElemSize + pos + ks) vs)

/-- Embedding of the leaf arm of Node::read (src/node.rs, lines 228-260):
rebuild the inode list from the count leaf elements of the page. -/
def nodeReadLeaf (count : Nat) (body : List Nat) :
    List (List Nat × List Nat) :=
  (List.range count).map (leafReadElem body)

/-- Loop body of the branch arm of Node::write (src/node.rs, lines 283-296):
element i holds pos, k_size and the child page id; key bytes are appended at
the running payload address. -/
def branchWriteGo (body : List Nat) (i addr : Nat) :
    List (List Nat × Nat) → List Nat
  | [] => body
  | (k, id) :: rest =>
    let pos := addr - i * branchElemSize
    let body := writeAt body (i * branchElemSize)
      (u32le pos ++ u32le k.length ++ u64le id)
    let body := writeAt body addr k
    branchWriteGo body (i + 1) (addr + k.length) rest

/-- Embedding of Node::write for a branch node into a fresh zeroed body. -/
def nodeWriteBranch (bodySize : Nat) (inodes : List (List Nat × Nat)) :
    Nat × List Nat :=
  (inodes.length,
   branchWriteGo (List.replicate bodySize 0) 0 (branchElemSize * inodes.length) inodes)

/-- Embedding of BranchPageElement::key (src/page.rs, lines 134-144) plus the
id field, for element i: the key slice starts pos bytes after the element
record with length k_size. -/
def branchReadElem (body : List Nat) (i : Nat) : List Nat × Nat :=
  let pos := readU32 body (i * branchElemSize)
  let ks := readU32 body (i * branchElemSize + 4)
  let id := readU64 body (i * branchElemSize + 8)
  (readAt body (i * branchElemSize + pos) ks, id)

/-- Embedding of the branch arm of Node::read. -/
def nodeReadBranch (count : Nat) (body : List Nat) :
    List (List Nat × Nat) :=
  (List.range count).map (branchReadElem body)

/-! ### Freelist (src/free_list.rs) -/

/-- Embedding of struct FreeList: pending as an association list from tx id
to its list of released pages, free_pages as the ascending list of free page
ids (the BTreeSet iterates in ascending order), cache as the membership list
behind the HashSet look-up. -/
structure FreeList where
  pending : List (Nat × List Nat)
  free_pages : List Nat
  cache : List Nat
  deriving Repr, DecidableEq

/-- Look up the pending list of a transaction id. -/
def pendLookup (p : List (Nat × List Nat)) (tx : Nat) : Option (List Nat) :=
  match p.find? (fun e => e.1 == tx) with
  | some e => some e.2
  | none => none

/-- Store a pending list under a transaction id, replacing an existing entry
or appending a new one (BTreeMap entry().or_insert followed by pushes). -/
def pendSet (p : List (Nat × List Nat)) (tx : Nat) (l : List Nat) :
    List (Nat × List Nat) :=
  match p with
  | [] => [(tx, l)]
  | e :: rest => if e.1 == tx then (tx, l) :: rest else e :: pendSet rest tx l

/-- HashSet::insert on the membership-list model of the cache. -/
def cacheInsert (c : List Nat) (id : Nat) : List Nat :=
  if id ∈ c then c else c ++ [id]

/-- Scan loop of FreeList::allocate (src/free_list.rs, lines 37-50): walk the
ascending free ids, restart the run at a gap (prev == 0 or id - prev differs
from 1), and succeed as soon as the run reaches len pages. -/
def flAllocGo (len : Nat) : List Nat → Nat → Nat → Option Nat
  | [], _, _ => none
  | id :: rest, start, prev =>
    let start := if prev == 0 || id - prev != 1 then id else start
    if id - start + 1 ≥ len then some start
    else flAllocGo len rest start id

/-- Embedding of FreeList::allocate (src/free_list.rs, lines 31-52): on
success the run start..start+len is removed from the free set (and cache)
and its first id returned. -/
def flAllocate (free : List Nat) (len : Nat) : Option (Nat × List Nat) :=
  if free.isEmpty || free.length < len then none
  else
    match flAllocGo len free 0 0 with
    | none => none
    | some start =>
      some (start, free.filter (fun id => decide (id < start) || decide (start + len ≤ id)))

/-- Loop of FreeList::free (src/free_list.rs, lines 57-63) over the page id
range: state is the pending entry vector and the cache; the loop stops with an
error as soon as an id is already in the free set, keeping the pushes made so
far. -/
def freeLoop (free : List Nat) :
    List Nat → List Nat → List Nat → Except Unit Unit × List Nat × List Nat
  | [], acc, cache => (.ok (), acc, cache)
  | id :: rest, acc, cache =>
    if id ∈ free then (.error (), acc, cache)
    else freeLoop free rest (acc ++ [id]) (cacheInsert cache id)

/-- Embedding of FreeList::free (src/free_list.rs, lines 55-65): releases the
range page.id ..= page.id + page.overflow into pending[tx_id], erroring on a
double free; the entry and cache keep whatever was pushed before the error. -/
def flFree (fl : FreeList) (tx : Nat) (pid overflow : Nat) :
    Except Unit Unit × FreeList :=
  let entry := (pendLookup fl.pending tx).getD []
  let r := freeLoop fl.free_pages (List.range' pid (overflow + 1)) entry fl.cache
  (r.1, { fl with pending := pendSet fl.pending tx r.2.1, cache := r.2.2 })

/-- Embedding of FreeList::count. -/
def flCount (fl : FreeList) : Nat :=
  fl.free_pages.length + (fl.pending.map (fun e => e.2.length)).sum

/-- Embedding of FreeList::page_ids (src/free_list.rs, lines 127-136): the
free ids followed by every pending list, sorted ascending. -/
def flPageIds (fl : FreeList) : List Nat :=
  ((fl.free_pages ++ (fl.pending.map (fun e => e.2)).flatten).mergeSort (· ≤ ·))

/-- Error raised by a slice length mismatch in copy_from_slice. -/
inductive WErr where
  | lengthMismatch
  deriving Repr, DecidableEq

/-- Embedding of slice copy_from_slice: the destination becomes the source
when the lengths agree, and the call panics otherwise. -/
def copyFromSlice (dst src : List Nat) : Except WErr (List Nat) :=
  if src.length = dst.length then .ok src else .error .lengthMismatch

/-- Embedding of FreeList::write (src/free_list.rs, lines 100-117), returning
the page header count and the body as a list of u64 slots.  In the overflow
arm the code sets count to u16::MAX, stores the true count in slot 0 of the
65535-slot view returned by free_list_mut, and then calls copy_from_slice
with the full page_ids list over that same view. -/
def flWrite (fl : FreeList) : Except WErr (Nat × List Nat) :=
  let count := flCount fl
  if count = 0 then .ok (0, [])
  else if count < 65535 then
    match copyFromSlice (List.replicate count 0) (flPageIds fl) with
    | .ok body => .ok (count, body)
    | .error e => .error e
  else
    let view := (List.replicate 65535 0).set 0 count
    match copyFromSlice view (flPageIds fl) with
    | .ok body => .ok (65535, body)
    | .error e => .error e

/-! ### Transaction allocation (src/transaction.rs) and store gate (src/db.rs) -/

/-- Result of ITransaction::allocate, as registered in the dirty-page map:
the chosen page id, the updated meta num_pages, and the length and header
fields of the freshly created VPage buffer. -/
structure AllocOut where
  pageId : Nat
  numPages : Nat
  bufLen : Nat
  overflow : Nat
  deriving Repr, DecidableEq

/-- Embedding of ITransaction::allocate (src/transaction.rs, lines 186-208):
num is the ceiling of data_size / page_size; the page id comes from the
freelist or from meta.num_pages (extending it by num); the buffer is created
by VPage::new(page_size) with zeroed header fields, after which only its id
is assigned. -/
def txAllocate (dataSize pageSize : Nat) (free : List Nat) (numPages : Nat) :
    AllocOut × List Nat :=
  let num := if dataSize % pageSize == 0 then dataSize / pageSize
             else dataSize / pageSize + 1
  match flAllocate free num with
  | none =>
    ({ pageId := numPages, numPages := numPages + num,
       bufLen := pageSize, overflow := 0 }, free)
  | some (id, free2) =>
    ({ pageId := id, numPages := numPages,
       bufLen := pageSize, overflow := 0 }, free2)

/-- The error returned by DB::tx when a writer exists
(RoltError::WritableTxNotAllowed). -/
inductive TxErr where
  | writableTxNotAllowed
  deriving Repr, DecidableEq

/-- Embedding of DB::tx (src/db.rs, lines 67-75): fail whenever the has_write
flag is set, before even inspecting the requested mode; otherwise set the flag
when the request is writable.  Returns the new has_write flag and the
writability of the created transaction. -/
def dbTx (hasWrite writable : Bool) : Except TxErr (Bool × Bool) :=
  if hasWrite then .error .writableTxNotAllowed
  else .ok (writable, writable)

/-- Events emitted while dropping the last reference to a Transaction. -/
inductive DropEvent where
  | releaseWriter
  | rollback
  | commit
  deriving Repr, DecidableEq

/-- Outcome of dropping a Transaction reference. -/
inductive DropOutcome where
  | nothing
  | finished (events : List DropEvent)
  | panicked (events : List DropEvent)
  deriving Repr, DecidableEq

/-- Embedding of impl Drop for Transaction (src/transaction.rs, lines
258-274): a no-op unless this is the last strong reference and the store is
still alive; then a read-only transaction runs rollback().unwrap(), and a
writable one runs release_write_tx() followed by commit().unwrap().
rollbackOk and commitOk say whether the underlying fallible call succeeds;
unwrap turns a failure into a panic. -/
def dropTransaction (strongCount : Nat) (dbAlive writable rollbackOk commitOk : Bool) :
    DropOutcome :=
  if strongCount > 1 then .nothing
  else if dbAlive then
    if !writable then
      if rollbackOk then .finished [.rollback]
      else .panicked [.rollback]
    else
      if commitOk then .finished [.releaseWriter, .commit]
      else .panicked [.releaseWriter, .commit]
  else .nothing

/-! ### Cursor pair extraction and Bucket::get
(src/cursor.rs, src/bucket.rs) -/

/-- A leaf inode in the data model of the specification and of src/inode.rs:
flags (1 marks a sub-bucket header), key, value. -/
structure LeafFI where
  flags : Nat
  key : List Nat
  value : List Nat
  deriving Repr, DecidableEq

/-- The pair a cursor hands back (struct KVPair, src/cursor.rs). -/
structure KVPair where
  key : Option (List Nat)
  value : Option (List Nat)
  flags : Nat
  deriving Repr, DecidableEq

/-- KVPair::null. -/
def KVPair.null : KVPair :=
  { key := none, value := none, flags := 0 }

/-- Embedding of From<&ElementRef> for KVPair (src/cursor.rs, lines 329-356)
on a node frame: null when the node is empty, otherwise the key and value of
the inode at the frame index with the flags field hardcoded to 0. -/
def kvFromElem (inodes : List LeafFI) (index : Nat) : KVPair :=
  if inodes.length == 0 then KVPair.null
  else
    let i := inodes.getD index ⟨0, [], []⟩
    { key := some i.key, value := some i.value, flags := 0 }

/-- Embedding of Cursor::seek followed by kv_pair for a bucket whose root is
a single leaf node: search_leaf leaves the frame index at the binary-search
position or insertion point; when that index is past the last element the
cursor advances with next(), which at the root returns the null pair. -/
def seekLeaf (inodes : List LeafFI) (target : List Nat) : KVPair :=
  let index :=
    match binarySearchBy (fun i => bytesCmp i.key target) inodes ⟨0, [], []⟩ with
    | .ok i => i
    | .error i => i
  if index ≥ inodes.length then KVPair.null
  else kvFromElem inodes index

/-- Bucket::FLAG, the sub-bucket marker. -/
def BUCKET_FLAG : Nat := 1

/-- Embedding of Bucket::get (src/bucket.rs, lines 132-142) over a
single-leaf bucket: seek, then return the value unless the pair carries the
sub-bucket flag or its key differs from the target. -/
def bucketGet (inodes : List LeafFI) (target : List Nat) : Option (List Nat) :=
  let pair := seekLeaf inodes target
  if pair.flags == BUCKET_FLAG || pair.key ≠ some target then none
  else pair.value

/-! ### Concrete sample states used by the theorems -/

/-- Meta contents of a freshly initialised store before the checksum is
assigned: Idb::init_file writes meta 0 with page_id 0, free_list 2,
num_pages 4, root page 3, tx_id 0. -/
def metaValidBase : Meta :=
  { page_id := 0, magic_number := Meta.MAGIC, version := 1, page_size := 4096,
    free_list := 2, tx_id := 5, root_root := 3, root_sequence := 0,
    num_pages := 4, check_sum := 0 }

/-- A meta record whose checksum verifies. -/
def metaValidSample : Meta :=
  { metaValidBase with check_sum := metaValidBase.sum64 }

/-- A meta record with a wrong magic number. -/
def metaInvalidSample : Meta :=
  { page_id := 1, magic_number := 0, version := 1, page_size := 4096,
    free_list := 2, tx_id := 9, root_root := 3, root_sequence := 0,
    num_pages := 4, check_sum := 0 }

/-- The meta snapshot of the first writer transaction on a freshly
initialised store: the chosen meta is slot 0 (page_id 0, tx_id 0) and
ITransaction::new has incremented tx_id to 1, leaving page_id untouched. -/
def metaFresh : Meta :=
  { page_id := 0, magic_number := Meta.MAGIC, version := 1, page_size := 4096,
    free_list := 2, tx_id := 1, root_root := 3, root_sequence := 0,
    num_pages := 4, check_sum := 0 }

/-- A freelist whose total count exceeds u16::MAX: 65536 free pages and no
pending releases. -/
def flBig : FreeList :=
  { pending := [], free_pages := List.range 65536, cache := List.range 65536 }

/-- A freelist with the single free page 5, used as the double-free sample. -/
def flSmall : FreeList :=
  { pending := [], free_pages := [5], cache := [5] }

/-! ### Helper lemmas -/

/-- An id just inserted is in the cache. -/
theorem mem_cacheInsert_self (c : List Nat) (a : Nat) : a ∈ cacheInsert c a := by
  unfold cacheInsert
  split <;> simp_all

/-- cacheInsert keeps existing members. -/
theorem mem_cacheInsert_of_mem {c : List Nat} {a : Nat} (h : a ∈ c) (b : Nat) :
    a ∈ cacheInsert c b := by
  unfold cacheInsert
  split <;> simp [h]

/-- Folding cacheInsert keeps existing members. -/
theorem mem_foldl_cacheInsert_of_mem {c : List Nat} {a : Nat} (h : a ∈ c)
    (l : List Nat) : a ∈ l.foldl cacheInsert c := by
  induction l generalizing c with
  | nil => exact h
  | cons x xs ih => exact ih (mem_cacheInsert_of_mem h x)

/-- Folding cacheInsert inserts every id of the list. -/
theorem mem_foldl_cacheInsert {c : List Nat} {a : Nat} (l : List Nat)
    (h : a ∈ l) : a ∈ l.foldl cacheInsert c := by
  induction l generalizing c with
  | nil => cases h
  | cons x xs ih =>
    rcases List.mem_cons.mp h with h1 | h2
    · subst h1
      exact mem_foldl_cacheInsert_of_mem (mem_cacheInsert_self c a) xs
    · exact ih h2

/-- Looking up a transaction id right after storing its list returns it. -/
theorem pendLookup_pendSet (p : List (Nat × List Nat)) (tx : Nat)
    (l : List Nat) : pendLookup (pendSet p tx l) tx = some l := by
  induction p with
  | nil => simp [pendSet, pendLookup, List.find?]
  | cons e rest ih =>
    by_cases h : e.1 = tx
    · simp [pendSet, pendLookup, List.find?, h]
    · simpa [pendSet, pendLookup, List.find?, h] using ih

/-- The free loop stops at the first id already in the free set, keeping the
pushes and cache inserts made for the ids scanned before it. -/
theorem freeLoop_conflict (free : List Nat) :
    ∀ (k n pid : Nat) (acc cache : List Nat), k < n →
      pid + k ∈ free → (∀ j, j < k → pid + j ∉ free) →
      freeLoop free (List.range' pid n) acc cache =
        (.error (), acc ++ List.range' pid k,
          (List.range' pid k).foldl cacheInsert cache) := by
  intro k
  induction k with
  | zero =>
    intro n pid acc cache hn hconf _
    obtain ⟨n1, rfl⟩ : ∃ n1, n = n1 + 1 := ⟨n - 1, by omega⟩
    rw [List.range'_succ]
    simp only [freeLoop]
    rw [if_pos (by simpa using hconf)]
    simp
  | succ k ih =>
    intro n pid acc cache hn hconf hbefore
    obtain ⟨n1, rfl⟩ : ∃ n1, n = n1 + 1 := ⟨n - 1, by omega⟩
    rw [List.range'_succ]
    simp only [freeLoop]
    rw [if_neg (by simpa using hbefore 0 (by omega))]
    rw [ih n1 (pid + 1) (acc ++ [pid]) (cacheInsert cache pid) (by omega)
      (by rw [Nat.add_right_comm]; exact hconf)
      (fun j hj => by rw [Nat.add_right_comm]; exact hbefore (j + 1) (by omega))]
    rw [List.range'_succ]
    simp [List.append_assoc]

/-- flCount on an explicitly given freelist state. -/
theorem flCount_mk (p : List (Nat × List Nat)) (f c : List Nat) :
    flCount ⟨p, f, c⟩ = f.length + (p.map (fun e => e.2.length)).sum := rfl

/-- page_ids has exactly count entries. -/
theorem flPageIds_length (fl : FreeList) : (flPageIds fl).length = flCount fl := by
  unfold flPageIds flCount
  rw [List.length_mergeSort, List.length_append, List.length_flatten,
    List.map_map]
  rfl

/-! ### Claim theorems -/

set_option maxRecDepth 100000 in
/-- C1: on a freshly initialised store whose chosen meta sits in slot 0, the
first writer (tx_id 1) stamps the written meta page header with id
tx_id % 2 = 1, yet write_meta places the bytes at file offset
meta.page_id * page_size = 0, not (tx_id % 2) * page_size: the slot holding
the previously newest valid meta is the one overwritten. -/
theorem meta_write_slot_mismatch :
    (Meta.write metaFresh ⟨0, 0, 0, 0⟩ (List.replicate 72 0)).2.1.id =
        metaFresh.tx_id % 2 ∧
      metaFresh.tx_id % 2 = 1 ∧
      writeMetaOffset metaFresh 4096 = 0 ∧
      writeMetaOffset metaFresh 4096 ≠ metaFresh.tx_id % 2 * 4096 := by
  decide

/-- C2: writing the one-inode leaf node (key [1], value [2]) into a fresh
64-byte page and reading it back does not reconstruct the inode list: the key
comes back with length key_off + k_size = 13 instead of k_size = 1, because
LeafPageElement::key declares the slice length as pos + k_size. -/
theorem leaf_roundtrip_mismatch :
    nodeReadLeaf (nodeWriteLeaf 64 [([1], [2])]).1
        (nodeWriteLeaf 64 [([1], [2])]).2 =
      [([1, 2, 0, 0, 0, 0, 0, 0, 0, 0, 0, 0, 0], [2])] ∧
    nodeReadLeaf (nodeWriteLeaf 64 [([1], [2])]).1
        (nodeWriteLeaf 64 [([1], [2])]).2 ≠ [([1], [2])] := by
  decide

/-- C3: on a hit, Node::put rewrites the found inode with
l.value = key.to_vec(): putting (old [1], new key [2], value [7]) over the
inode (key [1], value [9]) yields the inode (key [2], value [2]), not
(key [2], value [7]) as the claim states. -/
theorem node_put_replace_value_bug :
    nodePut [Inode.leaf [1] [9]] [1] [2] [7] = some [Inode.leaf [2] [2]] ∧
      nodePut [Inode.leaf [1] [9]] [1] [2] [7] ≠ some [Inode.leaf [2] [7]] := by
  decide

/-- C4: a meta is valid exactly when its magic matches and its stored
checksum equals the FNV-1a hash of the preceding bytes; with both metas valid
the higher tx_id wins and ties go to meta 0, with one valid that one is
chosen, and with neither the open fails fatally (modelled as none). -/
theorem meta_validation_selection (m0 m1 : Meta) :
    (m0.validate = true ↔
      m0.magic_number = Meta.MAGIC ∧ m0.check_sum = m0.sum64) ∧
    (m0.validate = true → m1.validate = true →
      (m1.tx_id ≤ m0.tx_id → chooseMeta m0 m1 = some m0) ∧
      (m0.tx_id < m1.tx_id → chooseMeta m0 m1 = some m1)) ∧
    (m0.validate = true → m1.validate = false → chooseMeta m0 m1 = some m0) ∧
    (m0.validate = false → m1.validate = true → chooseMeta m0 m1 = some m1) ∧
    (m0.validate = false → m1.validate = false → chooseMeta m0 m1 = none) := by
  refine ⟨by simp [Meta.validate], ?_, ?_, ?_, ?_⟩
  · intro h0 h1
    refine ⟨fun hle => ?_, fun hlt => ?_⟩
    · unfold chooseMeta
      rw [h0, h1]
      exact if_pos hle
    · unfold chooseMeta
      rw [h0, h1]
      exact if_neg (by omega)
  · intro h0 h1
    unfold chooseMeta
    rw [h0, h1]
  · intro h0 h1
    unfold chooseMeta
    rw [h0, h1]
  · intro h0 h1
    unfold chooseMeta
    rw [h0, h1]

set_option maxRecDepth 100000 in
/-- C4 witness: the selection theorem applied to a concrete valid meta and a
concrete invalid one. -/
theorem meta_validation_selection_witness :
    chooseMeta metaValidSample metaInvalidSample = some metaValidSample :=
  (meta_validation_selection metaValidSample metaInvalidSample).2.2.1
    (by decide) (by decide)

/-- C5: allocating 8192 bytes with page size 4096 and an empty freelist needs
n = 2 pages; the id and num_pages bookkeeping follow the claim, but the dirty
buffer registered is page_size = 4096 bytes long (VPage::new(page_size)), not
n * page_size, and its overflow field stays 0, not n - 1. -/
theorem tx_allocate_buffer_bug :
    (txAllocate 8192 4096 [] 4).1 =
        { pageId := 4, numPages := 6, bufLen := 4096, overflow := 0 } ∧
      (txAllocate 8192 4096 [] 4).1.bufLen ≠ 2 * 4096 ∧
      (txAllocate 8192 4096 [] 4).1.overflow ≠ 2 - 1 := by
  decide

/-- C6: the cursor pair conversion hardcodes flags to 0, so Bucket::get
returns the stored payload even when the element found is a sub-bucket header
(flags = 1); the claim requires None there. -/
theorem bucket_get_subbucket_flag_bug :
    bucketGet [⟨BUCKET_FLAG, [7], [1, 2]⟩] [7] = some [1, 2] ∧
      bucketGet [⟨BUCKET_FLAG, [7], [1, 2]⟩] [7] ≠ none := by
  decide

/-- C7: whenever the freelist count exceeds u16::MAX, FreeList::write panics:
free_list_mut yields a 65535-slot view (p.count is already u16::MAX), the
true count stored in slot 0 is handed to copy_from_slice together with the
full page_ids list, and the slice lengths differ. -/
theorem freelist_write_overflow_mismatch (fl : FreeList)
    (h : 65535 < flCount fl) :
    flWrite fl = .error .lengthMismatch := by
  unfold flWrite
  rw [if_neg (by omega), if_neg (by omega)]
  have hcfs : copyFromSlice ((List.replicate 65535 0).set 0 (flCount fl))
      (flPageIds fl) = .error .lengthMismatch := by
    unfold copyFromSlice
    rw [if_neg]
    rw [flPageIds_length, List.length_set, List.length_replicate]
    omega
  simp only [hcfs]

/-- C7 witness: the overflow panic theorem applied to the freelist holding
the 65536 pages 0..65535. -/
theorem freelist_write_overflow_mismatch_witness :
    flWrite flBig = .error .lengthMismatch :=
  freelist_write_overflow_mismatch flBig (by
    rw [show flBig = (⟨[], List.range 65536, List.range 65536⟩ : FreeList) from
      rfl, flCount_mk, List.length_range, List.map_nil, List.sum_nil]
    omega)

/-- C8: DB::tx checks the has_write flag before looking at the requested
mode, so while a writer is open a second writable transaction is rejected
with the writer-in-use error, and a read-only request is rejected with the
same error instead of succeeding. -/
theorem db_tx_blocks_readonly :
    dbTx true false = .error .writableTxNotAllowed ∧
      dbTx true true = .error .writableTxNotAllowed ∧
      dbTx false true = .ok (true, true) ∧
      dbTx false false = .ok (false, false) :=
  ⟨rfl, rfl, rfl, rfl⟩

/-- C9: when the range pid ..= pid + ov released by FreeList::free hits its
first id already in the free set at offset k, the call returns an error, yet
the k ids scanned before the conflict have been appended to pending[tx] and
inserted into the cache, and both survive the early return. -/
theorem freelist_free_partial_mutation (fl : FreeList) (tx pid ov k : Nat)
    (hk : k ≤ ov) (hconf : pid + k ∈ fl.free_pages)
    (hbefore : ∀ j, j < k → pid + j ∉ fl.free_pages) :
    (flFree fl tx pid ov).1 = .error () ∧
    pendLookup (flFree fl tx pid ov).2.pending tx =
      some ((pendLookup fl.pending tx).getD [] ++ List.range' pid k) ∧
    ∀ j, j < k → pid + j ∈ (flFree fl tx pid ov).2.cache := by
  have hloop := freeLoop_conflict fl.free_pages k (ov + 1) pid
    ((pendLookup fl.pending tx).getD []) fl.cache (by omega) hconf hbefore
  simp only [flFree, hloop]
  refine ⟨trivial, pendLookup_pendSet _ _ _, ?_⟩
  intro j hj
  exact mem_foldl_cacheInsert _ (List.mem_range'_1.mpr ⟨by omega, by omega⟩)

/-- C9 witness: releasing pages 3..6 for transaction 9 against the freelist
whose free set is {5} errors at page 5, leaving pages 3 and 4 in pending[9]
and in the cache. -/
theorem freelist_free_partial_mutation_witness :
    (flFree flSmall 9 3 3).1 = .error () ∧
      pendLookup (flFree flSmall 9 3 3).2.pending 9 = some [3, 4] ∧
      3 ∈ (flFree flSmall 9 3 3).2.cache ∧
      4 ∈ (flFree flSmall 9 3 3).2.cache := by
  have h := freelist_free_partial_mutation flSmall 9 3 3 2 (by decide)
    (by decide) (by decide)
  exact ⟨h.1, h.2.1.trans (by decide), h.2.2 0 (by omega),
    by simpa using h.2.2 1 (by omega)⟩

/-- C10: dropping the last reference to a Transaction while the store is
alive finishes it implicitly: a read-only transaction is rolled back, a
writable one releases the writer slot and is then committed, and a failing
rollback or commit panics; an earlier reference or a dead store does
nothing. -/
theorem transaction_drop_behavior :
    ∀ rollbackOk commitOk : Bool,
      dropTransaction 1 true false true commitOk = .finished [.rollback] ∧
      dropTransaction 1 true false false commitOk = .panicked [.rollback] ∧
      dropTransaction 1 true true rollbackOk true =
        .finished [.releaseWriter, .commit] ∧
      dropTransaction 1 true true rollbackOk false =
        .panicked [.releaseWriter, .commit] ∧
      dropTransaction 2 true true rollbackOk commitOk = .nothing ∧
      dropTransaction 1 false true rollbackOk commitOk = .nothing := by
  decide

end Roltdb
